import Mathlib

/-!
Shallow embedding of `async_blp/handler_refdata.py` (class `HandlerRef`).

The handler receives Bloomberg events on a foreign thread and routes each
message to the `ReferenceDataRequest` registered under the message's
correlation id, by pushing the message (or the terminal sentinel `None`)
onto that request's output queue.

Modelling decisions:
* Correlation ids and request objects are identified by `Nat`.
* The Python dict `self.requests` is an insertion-ordered association
  list `List (Nat × Nat)`; `dictLookup` is `d[k]` (`none` = `KeyError`),
  `dictInsert` is `d[k] = v`.
* Side effects (queue pushes, session calls) are recorded as a trace of
  `Action`s; an exception escaping a handler is an `Option PyError` /
  `Except PyError` result, with the actions already performed kept.
* `blpapi.Event` is a type tag (`Nat`, with the blpapi constants) plus a
  list of messages; a `blpapi.Message` exposes its element name, its
  correlation ids, and whether it has the `RESPONSE_ERROR` element.
-/

namespace AsyncBlp

/-- Python exceptions that the handler code can raise. -/
inductive PyError where
  | keyError (key : Nat)
  | runtimeError (msg : String)
  | indexError
deriving DecidableEq, Repr

/-- Modelled from the spec: a wire message. `ReferenceDataRequest`,
`utils.blp_name.RESPONSE_ERROR` and the blpapi message interface are not
part of the analysed source; per the spec a message exposes its element
name (`asElement().name()`), its attached correlation ids
(`correlationIds()`), and whether it carries the designated
"response error" marker element (`hasElement(RESPONSE_ERROR)`).
`payload` stands for the otherwise opaque content. -/
structure Message where
  name : String
  hasResponseError : Bool
  correlationIds : List Nat
  payload : Nat
deriving DecidableEq, Repr

/-- A Bloomberg event: a type tag plus the iterable of messages. -/
structure Event where
  eventType : Nat
  messages : List Message
deriving DecidableEq, Repr

/-- blpapi event-type constants used in `method_map`. -/
def Event.SESSION_STATUS : Nat := 2
def Event.SERVICE_STATUS : Nat := 9
def Event.RESPONSE : Nat := 5
def Event.PARTIAL_RESPONSE : Nat := 6
def Event.TIMEOUT : Nat := 10
def Event.ADMIN : Nat := 1

/-- Observable side effects of the handler, in program order.
`push req m` is `request.send_queue_message(m)` (modelled from the spec:
`ReferenceDataRequest.send_queue_message` is not in the analysed source;
per the spec it pushes a message or the terminal sentinel `None` onto the
request's output channel). The others are the session calls and the
registration of a correlation id in `self.requests`. -/
inductive Action where
  | push (req : Nat) (msg : Option Message)
  | register (corrId : Nat) (req : Nat)
  | openService (serviceName : String)
  | sendRequest (corrId : Nat)
  | createSession
  | startAsync
  | stopAsync
deriving DecidableEq, Repr

/-- The pending-request table `self.requests : Dict[CorrelationId,
ReferenceDataRequest]`, as an insertion-ordered association list. -/
abbrev Table : Type := List (Nat × Nat)

/-- Python dict lookup `d[k]`, `none` meaning `KeyError`. -/
def dictLookup (t : Table) (k : Nat) : Option Nat :=
  (List.find? (fun p => p.1 == k) t).map (fun p => p.2)

/-- Python dict assignment `d[k] = v`: update in place if the key exists,
otherwise append (insertion order). -/
def dictInsert (t : Table) (k v : Nat) : Table :=
  if List.any t (fun p => p.1 == k) then
    List.map (fun p => if p.1 == k then (k, v) else p) t
  else t ++ [(k, v)]

/-- Handler state: the fields of `HandlerRef` that the claims concern.
`session_started` / `session_stopped` model the two `asyncio.Event`s
(set or not), `services` the dict `self.services : Dict[str,
asyncio.Event]` mapping each seen service name to whether its event is
set. -/
structure HandlerState where
  requests : Table
  session_started : Bool
  session_stopped : Bool
  services : List (String × Bool)
deriving DecidableEq, Repr

/-- Embeds `HandlerRef._close_requests`: send `None` to every given request's
queue, in order. -/
def close_requests (reqs : List Nat) : List Action :=
  List.map (fun r => Action.push r none) reqs

/-- The list comprehension `[self.requests[cor_id] for cor_id in
msg.correlationIds()]`: look every correlation id up, raising `KeyError`
on the first miss (in which case no request object is produced). -/
def lookupAll (t : Table) : List Nat → Except PyError (List Nat)
  | [] => Except.ok []
  | c :: cs =>
      match dictLookup t c with
      | none => Except.error (PyError.keyError c)
      | some r =>
          match lookupAll t cs with
          | Except.error e => Except.error e
          | Except.ok rs => Except.ok (r :: rs)

/-- Embeds `HandlerRef._is_error_msg`: if the message has the `RESPONSE_ERROR`
element, close all requests attached to its correlation ids and return
`True`; otherwise return `False`. Returns the emitted actions and either
the boolean result or the escaped exception. -/
def is_error_msg (t : Table) (m : Message) :
    List Action × Except PyError Bool :=
  if m.hasResponseError then
    match lookupAll t m.correlationIds with
    | Except.error e => ([], Except.error e)
    | Except.ok reqs => (close_requests reqs, Except.ok true)
  else ([], Except.ok false)

/-- The inner loop of `HandlerRef._partial_handler`: `for cor_id in
msg.correlationIds(): self.requests[cor_id].send_queue_message(msg)`.
Pushes already made are kept when a later lookup raises `KeyError`. -/
def forwardMsg (t : Table) (m : Message) :
    List Nat → List Action × Option PyError
  | [] => ([], none)
  | c :: cs =>
      match dictLookup t c with
      | none => ([], some (PyError.keyError c))
      | some r =>
          let rest := forwardMsg t m cs
          (Action.push r (some m) :: rest.1, rest.2)

/-- Embeds `HandlerRef._partial_handler`: for each message of the event, skip it
(after closing its requests) if it is an error message, otherwise forward
it to the request of each of its correlation ids. -/
def partial_handler (t : Table) : List Message → List Action × Option PyError
  | [] => ([], none)
  | m :: rest =>
      match is_error_msg t m with
      | (acts, Except.error e) => (acts, some e)
      | (acts, Except.ok true) =>
          let tail := partial_handler t rest
          (acts ++ tail.1, tail.2)
      | (acts, Except.ok false) =>
          let fwd := forwardMsg t m m.correlationIds
          match fwd.2 with
          | some e => (acts ++ fwd.1, some e)
          | none =>
              let tail := partial_handler t rest
              (acts ++ fwd.1 ++ tail.1, tail.2)

/-- The second loop of `HandlerRef._response_handler`: for each message of
the event, look up the requests of all its correlation ids and close
them. -/
def responseCloseLoop (t : Table) :
    List Message → List Action × Option PyError
  | [] => ([], none)
  | m :: rest =>
      match lookupAll t m.correlationIds with
      | Except.error e => ([], some e)
      | Except.ok reqs =>
          let tail := responseCloseLoop t rest
          (close_requests reqs ++ tail.1, tail.2)

/-- Embeds `HandlerRef._response_handler`: run `_partial_handler` on the event,
then close the requests of every message's correlation ids. -/
def response_handler (t : Table) (msgs : List Message) :
    List Action × Option PyError :=
  match partial_handler t msgs with
  | (acts, some e) => (acts, some e)
  | (acts, none) =>
      let cl := responseCloseLoop t msgs
      (acts ++ cl.1, cl.2)

/-- Embeds `HandlerRef._session_handler`: look at the first message
(`list(event_)[0]`, `IndexError` if the event is empty); set
`session_started` on `SessionStarted` and `session_stopped` on
`SessionStopped` (two independent `if`s; the `call_soon_threadsafe`
hand-off is modelled as the direct state update). -/
def session_handler (st : HandlerState) (msgs : List Message) :
    HandlerState × Option PyError :=
  match msgs with
  | [] => (st, some PyError.indexError)
  | m :: _ =>
      let st1 := if m.name = "SessionStarted"
        then { st with session_started := true } else st
      let st2 := if m.name = "SessionStopped"
        then { st1 with session_stopped := true } else st1
      (st2, none)

/-- Embeds `HandlerRef._service_handler`: on a `ServiceOpened` first message, set
the event of every tracked service (the upstream notification does not
say which service opened). -/
def service_handler (st : HandlerState) (msgs : List Message) :
    HandlerState × Option PyError :=
  match msgs with
  | [] => (st, some PyError.indexError)
  | m :: _ =>
      if m.name = "ServiceOpened" then
        ({ st with services := List.map (fun p => (p.1, true)) st.services },
         none)
      else (st, none)

/-- Embeds `HandlerRef.__call__`: dispatch on `event.eventType()` through
`method_map`; an event type outside the four keys raises `KeyError`.
Returns the new state, the emitted actions and the escaped exception, if
any. -/
def handler_call (st : HandlerState) (e : Event) :
    HandlerState × List Action × Option PyError :=
  if e.eventType = Event.SESSION_STATUS then
    let r := session_handler st e.messages
    (r.1, [], r.2)
  else if e.eventType = Event.SERVICE_STATUS then
    let r := service_handler st e.messages
    (r.1, [], r.2)
  else if e.eventType = Event.RESPONSE then
    let r := response_handler st.requests e.messages
    (st, r.1, r.2)
  else if e.eventType = Event.PARTIAL_RESPONSE then
    let r := partial_handler st.requests e.messages
    (st, r.1, r.2)
  else
    (st, [], some (PyError.keyError e.eventType))

/-- Embeds `HandlerRef.stop_session`: close every request still in
`self.requests` (in table order), then `session.stopAsync()`. The table
itself is not modified. -/
def stop_session (st : HandlerState) : List Action :=
  close_requests (List.map (fun p => p.2) st.requests) ++ [Action.stopAsync]

/-- The spec's `ConfigurationError` taxonomy entry corresponds to the
`RuntimeError` raised by `HandlerRef.__init__` when no asyncio loop is
running. -/
def configurationError : PyError :=
  PyError.runtimeError "Please create handler inside asyncio loop"

/-- Embeds `HandlerRef.__init__`: initialise the fields, create the session with
this handler as the event handler, call `startAsync()`, then call
`asyncio.get_running_loop()` — re-raised as the configuration
`RuntimeError` when no loop is running. The session creation and
`startAsync()` happen before the loop check in either case. -/
def handler_init (hasRunningLoop : Bool) :
    List Action × Except PyError HandlerState :=
  let acts := [Action.createSession, Action.startAsync]
  if hasRunningLoop then
    (acts, Except.ok
      { requests := [], session_started := false,
        session_stopped := false, services := [] })
  else
    (acts, Except.error configurationError)

/-- The synchronous part of `HandlerRef._get_service` before the `await`:
if the service name is unseen, create its (unset) `asyncio.Event` and call
`session.openServiceAsync(service_name)`; otherwise do nothing. The
check-create-open sequence has no suspension point, so it runs atomically
under cooperative scheduling. -/
def get_service_sync (services : List (String × Bool)) (name : String) :
    List (String × Bool) × List Action :=
  if List.any services (fun p => p.1 == name) then (services, [])
  else (services ++ [(name, false)], [Action.openService name])

/-- One scheduler-visible step touching `self.services`: either the
synchronous part of a `_get_service` call, or a `ServiceOpened` service
status event marking every tracked service ready. -/
inductive SvcStep where
  | getService (serviceName : String)
  | serviceOpened
deriving DecidableEq, Repr

/-- Embeds `_service_handler`'s effect on `self.services`: set every event. -/
def svcOpenAll (services : List (String × Bool)) : List (String × Bool) :=
  List.map (fun p => (p.1, true)) services

/-- Run a sequence of `SvcStep`s from a given `services` state, collecting
the emitted session actions. -/
def runSvc (services : List (String × Bool)) :
    List SvcStep → List (String × Bool) × List Action
  | [] => (services, [])
  | SvcStep.getService n :: rest =>
      let r := get_service_sync services n
      let done := runSvc r.1 rest
      (done.1, r.2 ++ done.2)
  | SvcStep.serviceOpened :: rest => runSvc (svcOpenAll services) rest

/-- One entry of the list passed to `HandlerRef.send_requests`: a
`ReferenceDataRequest` is identified by its queue id and exposes the
service name it targets. -/
structure RefDataRequest where
  id : Nat
  service_name : String
deriving DecidableEq, Repr

/-- The loop of `HandlerRef.send_requests` (after `await
self.session_started.wait()`): for each request, mint a fresh correlation
id (`uuid.uuid4()`, modelled by a counter — only freshness matters),
register it in `self.requests`, resolve the service (possibly triggering
`openServiceAsync`), then `session.sendRequest` tagged with the
correlation id. Returns the final table, services state, next counter and
the action trace. -/
def send_requests (t : Table) (services : List (String × Bool))
    (nextCorr : Nat) :
    List RefDataRequest → Table × List (String × Bool) × Nat × List Action
  | [] => (t, services, nextCorr, [])
  | r :: rs =>
      let c := nextCorr
      let t1 := dictInsert t c r.id
      let so := get_service_sync services r.service_name
      let rest := send_requests t1 so.1 (c + 1) rs
      (rest.1, rest.2.1, rest.2.2.1,
        Action.register c r.id :: (so.2 ++ (Action.sendRequest c :: rest.2.2.2)))

/-- The messages (payloads and sentinels) pushed onto request `r`'s output
channel by a trace of actions, in order. -/
def channelProj (r : Nat) (acts : List Action) : List (Option Message) :=
  List.filterMap
    (fun a => match a with
      | Action.push r' m => if r' == r then some m else none
      | _ => none)
    acts

/-- How many terminal sentinels a trace pushes onto request `r`'s
channel. -/
def sentinelCount (acts : List Action) (r : Nat) : Nat :=
  List.count (Action.push r none) acts

/-! Concrete sample data used by witnesses and counterexamples. -/

/-- A non-error payload message tagged with correlation id 1. -/
def msgA : Message :=
  { name := "ReferenceDataResponse", hasResponseError := false,
    correlationIds := [1], payload := 100 }

/-- A second non-error payload message tagged with correlation id 1. -/
def msgB : Message :=
  { name := "ReferenceDataResponse", hasResponseError := false,
    correlationIds := [1], payload := 200 }

/-- A message carrying the `RESPONSE_ERROR` element, tagged with
correlation id 1. -/
def msgErr : Message :=
  { name := "ReferenceDataResponse", hasResponseError := true,
    correlationIds := [1], payload := 300 }

/-- A non-error message tagged with the unregistered correlation id 7. -/
def msgOrphan : Message :=
  { name := "ReferenceDataResponse", hasResponseError := false,
    correlationIds := [7], payload := 400 }

/-- A handler state with one pending request: correlation id 1 routed to
request 10. -/
def st1 : HandlerState :=
  { requests := [(1, 10)], session_started := true,
    session_stopped := false, services := [] }

/-- A RESPONSE event with two payload messages both tagged with
correlation id 1. -/
def evRespAB : Event :=
  { eventType := Event.RESPONSE, messages := [msgA, msgB] }

/-- A RESPONSE event with a single payload message tagged with
correlation id 1. -/
def evRespA : Event :=
  { eventType := Event.RESPONSE, messages := [msgA] }

/-- A PARTIAL_RESPONSE event with a single error-marked message tagged
with correlation id 1. -/
def evPartErr : Event :=
  { eventType := Event.PARTIAL_RESPONSE, messages := [msgErr] }

/-- A PARTIAL_RESPONSE event with a single payload message tagged with
the unregistered correlation id 7. -/
def evPartOrphan : Event :=
  { eventType := Event.PARTIAL_RESPONSE, messages := [msgOrphan] }

/-- A PARTIAL_RESPONSE event with a single payload message tagged with
correlation id 1. -/
def evPartA : Event :=
  { eventType := Event.PARTIAL_RESPONSE, messages := [msgA] }

/-- A TIMEOUT event with no messages. -/
def evTimeout : Event :=
  { eventType := Event.TIMEOUT, messages := [] }

/-! Helper lemmas. -/

theorem channelProj_append (r : Nat) (l1 l2 : List Action) :
    channelProj r (l1 ++ l2) = channelProj r l1 ++ channelProj r l2 := by
  unfold channelProj
  exact List.filterMap_append l1 l2 _

theorem channelProj_cons_push (r a : Nat) (m : Option Message)
    (l : List Action) :
    channelProj r (Action.push a m :: l)
      = if a = r then m :: channelProj r l else channelProj r l := by
  unfold channelProj
  rw [List.filterMap_cons]
  by_cases h : a = r <;> simp [h]

theorem dictLookup_mem {t : Table} {k v : Nat}
    (h : dictLookup t k = some v) : (k, v) ∈ t := by
  unfold dictLookup at h
  cases hf : List.find? (fun p => p.1 == k) t with
  | none => rw [hf] at h; simp at h
  | some p =>
      rw [hf] at h
      simp only [Option.map_some', Option.some.injEq] at h
      have hp := List.find?_some hf
      have hm : p ∈ t := List.mem_of_find?_eq_some hf
      have h1 : p.1 = k := by simpa using hp
      have hpkv : p = (k, v) := by
        cases p
        simp only [Prod.mk.injEq]
        exact ⟨h1, h⟩
      rw [hpkv] at hm
      exact hm

theorem count_close_requests (reqs : List Nat) (r : Nat) :
    sentinelCount (close_requests reqs) r = List.count r reqs := by
  unfold sentinelCount close_requests
  induction reqs with
  | nil => rfl
  | cons v vs ih =>
      rw [List.map_cons, List.count_cons, List.count_cons, ih]
      congr 1
      by_cases h : r = v
      · subst h; simp
      · simp [beq_iff_eq, h]

theorem dictLookup_inj {t : Table} {c r : Nat}
    (huniq : ∀ p ∈ t, p.2 = r → p.1 = c) {c' : Nat}
    (h : dictLookup t c' = some r) : c' = c :=
  huniq (c', r) (dictLookup_mem h) rfl

theorem forwardMsg_no_err (t : Table) (m : Message) :
    ∀ ids : List Nat, (∀ c' ∈ ids, (dictLookup t c').isSome) →
      (forwardMsg t m ids).2 = none := by
  intro ids
  induction ids with
  | nil => intro _; rfl
  | cons a cs ih =>
      intro h
      obtain ⟨ra, hla⟩ :=
        Option.isSome_iff_exists.mp (h a (List.mem_cons_self a cs))
      have hcs := ih (fun c' hc' => h c' (List.mem_cons_of_mem a hc'))
      simp [forwardMsg, hla, hcs]

theorem forwardMsg_proj (t : Table) (m : Message) (c r : Nat)
    (hc : dictLookup t c = some r)
    (huniq : ∀ p ∈ t, p.2 = r → p.1 = c) :
    ∀ ids : List Nat, (∀ c' ∈ ids, (dictLookup t c').isSome) → ids.Nodup →
      channelProj r (forwardMsg t m ids).1
        = if c ∈ ids then [some m] else [] := by
  intro ids
  induction ids with
  | nil => intro _ _; simp [forwardMsg, channelProj]
  | cons a cs ih =>
      intro hreg hnd
      obtain ⟨ra, hla⟩ :=
        Option.isSome_iff_exists.mp (hreg a (List.mem_cons_self a cs))
      have hcs : ∀ c' ∈ cs, (dictLookup t c').isSome :=
        fun c' hc' => hreg c' (List.mem_cons_of_mem a hc')
      have hnd' : cs.Nodup := (List.nodup_cons.mp hnd).2
      have ihh := ih hcs hnd'
      by_cases hac : a = c
      · subst hac
        have hra : ra = r := by
          rw [hc] at hla
          exact (Option.some.inj hla).symm
        subst hra
        have hnotin : a ∉ cs := (List.nodup_cons.mp hnd).1
        have hproj0 : channelProj ra (forwardMsg t m cs).1 = [] := by
          rw [ihh, if_neg hnotin]
        simp [forwardMsg, hla, channelProj_cons_push, hproj0]
      · have hra : ra ≠ r := by
          intro hra
          subst hra
          exact hac (dictLookup_inj huniq hla)
        have hmem : c ∈ a :: cs ↔ c ∈ cs := by
          rw [List.mem_cons]
          constructor
          · rintro (h | h)
            · exact absurd h.symm hac
            · exact h
          · exact Or.inr
        simp [forwardMsg, hla, channelProj_cons_push, hra, hmem, ihh]

theorem forwardMsg_shape (t : Table) (m : Message) :
    ∀ (ids : List Nat) (a : Action), a ∈ (forwardMsg t m ids).1 →
      ∃ r', a = Action.push r' (some m) := by
  intro ids
  induction ids with
  | nil => intro a h; simp [forwardMsg] at h
  | cons x xs ih =>
      intro a h
      cases hl : dictLookup t x with
      | none => rw [forwardMsg, hl] at h; simp at h
      | some rx =>
          rw [forwardMsg, hl] at h
          simp only [List.mem_cons] at h
          rcases h with h | h
          · exact ⟨rx, h⟩
          · exact ih a h

theorem lookupAll_ok (t : Table) :
    ∀ ids : List Nat, (∀ c' ∈ ids, (dictLookup t c').isSome) →
      ∃ rs, lookupAll t ids = Except.ok rs := by
  intro ids
  induction ids with
  | nil => intro _; exact ⟨[], rfl⟩
  | cons a cs ih =>
      intro h
      obtain ⟨ra, hla⟩ :=
        Option.isSome_iff_exists.mp (h a (List.mem_cons_self a cs))
      obtain ⟨rs, hrs⟩ := ih (fun c' hc' => h c' (List.mem_cons_of_mem a hc'))
      exact ⟨ra :: rs, by rw [lookupAll, hla, hrs]⟩

theorem lookupAll_mem (t : Table) :
    ∀ (ids rs : List Nat) (c r : Nat), lookupAll t ids = Except.ok rs →
      c ∈ ids → dictLookup t c = some r → r ∈ rs := by
  intro ids
  induction ids with
  | nil => intro rs c r _ hmem; simp at hmem
  | cons a cs ih =>
      intro rs c r hok hmem hlook
      cases hla : dictLookup t a with
      | none => rw [lookupAll, hla] at hok; simp at hok
      | some ra =>
          rw [lookupAll, hla] at hok
          cases hcs : lookupAll t cs with
          | error e => rw [hcs] at hok; simp at hok
          | ok rs' =>
              rw [hcs] at hok
              simp only [Except.ok.injEq] at hok
              subst hok
              rcases List.mem_cons.mp hmem with h | h
              · subst h
                rw [hla] at hlook
                rw [Option.some.inj hlook]
                exact List.mem_cons_self r rs'
              · exact List.mem_cons_of_mem ra (ih rs' c r hcs h hlook)

theorem close_requests_shape (rs : List Nat) (a : Action)
    (h : a ∈ close_requests rs) : ∃ v, a = Action.push v none := by
  unfold close_requests at h
  obtain ⟨v, _, hv⟩ := List.mem_map.mp h
  exact ⟨v, hv.symm⟩

theorem close_requests_cons (v : Nat) (vs : List Nat) :
    close_requests (v :: vs) = Action.push v none :: close_requests vs := rfl

theorem lookupAll_proj (t : Table) (c r : Nat)
    (hc : dictLookup t c = some r)
    (huniq : ∀ p ∈ t, p.2 = r → p.1 = c) :
    ∀ (ids rs : List Nat), lookupAll t ids = Except.ok rs → ids.Nodup →
      channelProj r (close_requests rs)
        = if c ∈ ids then [(none : Option Message)] else [] := by
  intro ids
  induction ids with
  | nil =>
      intro rs hok _
      simp only [lookupAll, Except.ok.injEq] at hok
      subst hok
      simp [close_requests, channelProj]
  | cons a cs ih =>
      intro rs hok hnd
      cases hla : dictLookup t a with
      | none => rw [lookupAll, hla] at hok; simp at hok
      | some ra =>
          rw [lookupAll, hla] at hok
          cases hcs : lookupAll t cs with
          | error e => rw [hcs] at hok; simp at hok
          | ok rs' =>
              rw [hcs] at hok
              simp only [Except.ok.injEq] at hok
              subst hok
              have hnd' : cs.Nodup := (List.nodup_cons.mp hnd).2
              have ihh := ih rs' hcs hnd'
              by_cases hac : a = c
              · subst hac
                have hra : ra = r := by
                  rw [hc] at hla
                  exact (Option.some.inj hla).symm
                subst hra
                have hnotin : a ∉ cs := (List.nodup_cons.mp hnd).1
                have hproj0 : channelProj ra (close_requests rs') = [] := by
                  rw [ihh, if_neg hnotin]
                rw [close_requests_cons, channelProj_cons_push, if_pos rfl,
                  hproj0, if_pos (List.mem_cons_self a cs)]
              · have hra : ra ≠ r := by
                  intro hra
                  subst hra
                  exact hac (dictLookup_inj huniq hla)
                have hmem : c ∈ a :: cs ↔ c ∈ cs := by
                  rw [List.mem_cons]
                  constructor
                  · rintro (h | h)
                    · exact absurd h.symm hac
                    · exact h
                  · exact Or.inr
                rw [close_requests_cons, channelProj_cons_push, if_neg hra,
                  ihh]
                simp [hmem]

theorem partial_handler_cons_noErr (t : Table) (m : Message)
    (rest : List Message) (hm : m.hasResponseError = false)
    (hfwd : (forwardMsg t m m.correlationIds).2 = none) :
    partial_handler t (m :: rest)
      = ((forwardMsg t m m.correlationIds).1
          ++ (partial_handler t rest).1, (partial_handler t rest).2) := by
  rw [partial_handler]
  have hie : is_error_msg t m = ([], Except.ok false) := by
    rw [is_error_msg, hm]
    rfl
  rw [hie]
  rcases hf : forwardMsg t m m.correlationIds with ⟨facts, ferr⟩
  rw [hf] at hfwd
  simp only at hfwd
  subst hfwd
  simp

theorem partial_handler_cons_err (t : Table) (m : Message)
    (rest : List Message) (hm : m.hasResponseError = true)
    {rs : List Nat} (hla : lookupAll t m.correlationIds = Except.ok rs) :
    partial_handler t (m :: rest)
      = (close_requests rs ++ (partial_handler t rest).1,
         (partial_handler t rest).2) := by
  rw [partial_handler]
  have hie : is_error_msg t m = (close_requests rs, Except.ok true) := by
    rw [is_error_msg, hm, hla]
    rfl
  rw [hie]

theorem partial_handler_proj_noErr (t : Table) (c r : Nat)
    (hc : dictLookup t c = some r)
    (huniq : ∀ p ∈ t, p.2 = r → p.1 = c) :
    ∀ msgs : List Message,
      (∀ m ∈ msgs, m.hasResponseError = false) →
      (∀ m ∈ msgs, ∀ c' ∈ m.correlationIds, (dictLookup t c').isSome) →
      (∀ m ∈ msgs, m.correlationIds.Nodup) →
      channelProj r (partial_handler t msgs).1
          = List.map some
              (List.filter (fun m => decide (c ∈ m.correlationIds)) msgs)
        ∧ (partial_handler t msgs).2 = none := by
  intro msgs
  induction msgs with
  | nil => intro _ _ _; exact ⟨rfl, rfl⟩
  | cons m rest ih =>
      intro hne hreg hnd
      have hm : m.hasResponseError = false := hne m (List.mem_cons_self m rest)
      have hmr : ∀ c' ∈ m.correlationIds, (dictLookup t c').isSome :=
        hreg m (List.mem_cons_self m rest)
      have hfwd := forwardMsg_no_err t m m.correlationIds hmr
      have ihh := ih (fun x hx => hne x (List.mem_cons_of_mem m hx))
        (fun x hx => hreg x (List.mem_cons_of_mem m hx))
        (fun x hx => hnd x (List.mem_cons_of_mem m hx))
      have hproj := forwardMsg_proj t m c r hc huniq m.correlationIds hmr
        (hnd m (List.mem_cons_self m rest))
      rw [partial_handler_cons_noErr t m rest hm hfwd]
      constructor
      · simp only [channelProj_append, hproj, ihh.1, List.filter_cons]
        by_cases hmem : c ∈ m.correlationIds
        · simp [hmem]
        · simp [hmem]
      · exact ihh.2

theorem responseCloseLoop_cons (t : Table) (m : Message)
    (rest : List Message) {rs : List Nat}
    (hla : lookupAll t m.correlationIds = Except.ok rs) :
    responseCloseLoop t (m :: rest)
      = (close_requests rs ++ (responseCloseLoop t rest).1,
         (responseCloseLoop t rest).2) := by
  rw [responseCloseLoop, hla]

theorem responseCloseLoop_proj (t : Table) (c r : Nat)
    (hc : dictLookup t c = some r)
    (huniq : ∀ p ∈ t, p.2 = r → p.1 = c) :
    ∀ msgs : List Message,
      (∀ m ∈ msgs, ∀ c' ∈ m.correlationIds, (dictLookup t c').isSome) →
      (∀ m ∈ msgs, m.correlationIds.Nodup) →
      channelProj r (responseCloseLoop t msgs).1
          = List.map (fun _ => (none : Option Message))
              (List.filter (fun m => decide (c ∈ m.correlationIds)) msgs)
        ∧ (responseCloseLoop t msgs).2 = none := by
  intro msgs
  induction msgs with
  | nil => intro _ _; exact ⟨rfl, rfl⟩
  | cons m rest ih =>
      intro hreg hnd
      have hmr : ∀ c' ∈ m.correlationIds, (dictLookup t c').isSome :=
        hreg m (List.mem_cons_self m rest)
      obtain ⟨rs, hla⟩ := lookupAll_ok t m.correlationIds hmr
      have ihh := ih (fun x hx => hreg x (List.mem_cons_of_mem m hx))
        (fun x hx => hnd x (List.mem_cons_of_mem m hx))
      have hproj := lookupAll_proj t c r hc huniq m.correlationIds rs hla
        (hnd m (List.mem_cons_self m rest))
      rw [responseCloseLoop_cons t m rest hla]
      constructor
      · simp only [channelProj_append, hproj, ihh.1, List.filter_cons]
        by_cases hmem : c ∈ m.correlationIds
        · simp [hmem]
        · simp [hmem]
      · exact ihh.2

theorem response_handler_eq_ok (t : Table) (msgs : List Message)
    (h : (partial_handler t msgs).2 = none) :
    response_handler t msgs
      = ((partial_handler t msgs).1 ++ (responseCloseLoop t msgs).1,
         (responseCloseLoop t msgs).2) := by
  unfold response_handler
  rcases hp : partial_handler t msgs with ⟨acts, err⟩
  rw [hp] at h
  simp only at h
  subst h
  simp

/-- C1 (amended): for a RESPONSE event whose messages all lack the error
marker, have duplicate-free correlation-id lists that are all registered,
and where request `r` is registered under correlation id `c` only, the
channel of `r` receives exactly the event's messages referencing `c`, in
event order, followed by one terminal sentinel per message referencing
`c` — so the sentinel arrives after all payloads, but "exactly once" only
when exactly one message references `c`. -/
theorem c1_amended (t : Table) (msgs : List Message) (c r : Nat)
    (hne : ∀ m ∈ msgs, m.hasResponseError = false)
    (hreg : ∀ m ∈ msgs, ∀ c' ∈ m.correlationIds, (dictLookup t c').isSome)
    (hnd : ∀ m ∈ msgs, m.correlationIds.Nodup)
    (hc : dictLookup t c = some r)
    (huniq : ∀ p ∈ t, p.2 = r → p.1 = c) :
    channelProj r (response_handler t msgs).1
        = List.map some
            (List.filter (fun m => decide (c ∈ m.correlationIds)) msgs)
          ++ List.map (fun _ => (none : Option Message))
            (List.filter (fun m => decide (c ∈ m.correlationIds)) msgs)
    ∧ (response_handler t msgs).2 = none := by
  have hp := partial_handler_proj_noErr t c r hc huniq msgs hne hreg hnd
  have hcl := responseCloseLoop_proj t c r hc huniq msgs hreg hnd
  have heq := response_handler_eq_ok t msgs hp.2
  constructor
  · rw [heq]
    simp only [channelProj_append, hp.1, hcl.1]
  · rw [heq]
    exact hcl.2

/-- Witness for C1 (amended) at a concrete input: one message tagged with
correlation id 1 yields that message then one sentinel on request 10's
channel. -/
theorem c1_amended_witness :
    channelProj 10 (response_handler [(1, 10)] [msgA]).1
        = List.map some
            (List.filter (fun m => decide (1 ∈ m.correlationIds)) [msgA])
          ++ List.map (fun _ => (none : Option Message))
            (List.filter (fun m => decide (1 ∈ m.correlationIds)) [msgA])
    ∧ (response_handler [(1, 10)] [msgA]).2 = none :=
  c1_amended [(1, 10)] [msgA] 1 10 (by decide) (by decide) (by decide)
    (by decide) (by decide)

theorem partial_handler_cons_noErr_fwdErr (t : Table) (m : Message)
    (rest : List Message) (hm : m.hasResponseError = false)
    {e : PyError} (hfwd : (forwardMsg t m m.correlationIds).2 = some e) :
    partial_handler t (m :: rest)
      = ((forwardMsg t m m.correlationIds).1, some e) := by
  rw [partial_handler]
  have hie : is_error_msg t m = ([], Except.ok false) := by
    rw [is_error_msg, hm]
    rfl
  rw [hie]
  rcases hf : forwardMsg t m m.correlationIds with ⟨facts, ferr⟩
  rw [hf] at hfwd
  simp only at hfwd
  subst hfwd
  simp

theorem partial_handler_cons_errFail (t : Table) (m : Message)
    (rest : List Message) (hm : m.hasResponseError = true)
    {e : PyError} (hla : lookupAll t m.correlationIds = Except.error e) :
    partial_handler t (m :: rest) = ([], some e) := by
  rw [partial_handler]
  have hie : is_error_msg t m = ([], Except.error e) := by
    rw [is_error_msg, hm, hla]
    rfl
  rw [hie]

theorem partial_handler_no_sentinel (t : Table) :
    ∀ msgs : List Message, (∀ m ∈ msgs, m.hasResponseError = false) →
      ∀ r, Action.push r none ∉ (partial_handler t msgs).1 := by
  intro msgs
  induction msgs with
  | nil => intro _ r h; simp [partial_handler] at h
  | cons m rest ih =>
      intro hne r h
      have hm : m.hasResponseError = false := hne m (List.mem_cons_self m rest)
      have ihh := ih (fun x hx => hne x (List.mem_cons_of_mem m hx)) r
      cases hfwd : (forwardMsg t m m.correlationIds).2 with
      | some e =>
          rw [partial_handler_cons_noErr_fwdErr t m rest hm hfwd] at h
          obtain ⟨r', hr'⟩ := forwardMsg_shape t m m.correlationIds _ h
          simp at hr'
      | none =>
          rw [partial_handler_cons_noErr t m rest hm hfwd] at h
          simp only [List.mem_append] at h
          rcases h with h | h
          · obtain ⟨r', hr'⟩ := forwardMsg_shape t m m.correlationIds _ h
            simp at hr'
          · exact ihh h

/-- C3 (amended): processing a PARTIAL_RESPONSE event pushes the terminal
sentinel only for messages carrying the `RESPONSE_ERROR` marker: an event
none of whose messages carries the marker pushes no sentinel onto any
channel. (RESPONSE events, by contrast, push sentinels unconditionally;
error-marked messages make PARTIAL_RESPONSE events close channels too,
see the counterexample.) -/
theorem c3_amended (st : HandlerState) (e : Event) (r : Nat)
    (het : e.eventType = Event.PARTIAL_RESPONSE)
    (hne : ∀ m ∈ e.messages, m.hasResponseError = false) :
    Action.push r none ∉ (handler_call st e).2.1 := by
  have hcall : handler_call st e
      = (st, (partial_handler st.requests e.messages).1,
         (partial_handler st.requests e.messages).2) := by
    unfold handler_call
    rw [het]
    simp [Event.PARTIAL_RESPONSE, Event.SESSION_STATUS,
      Event.SERVICE_STATUS, Event.RESPONSE]
  rw [hcall]
  exact partial_handler_no_sentinel st.requests e.messages hne r

/-- Witness for C3 (amended) at a concrete input: a PARTIAL_RESPONSE with
one unmarked payload message pushes no sentinel to request 10. -/
theorem c3_amended_witness :
    Action.push 10 none ∉ (handler_call st1 evPartA).2.1 :=
  c3_amended st1 evPartA 10 (by decide) (by decide)

theorem partial_handler_payload_noErr (t : Table) :
    ∀ (msgs : List Message) (r' : Nat) (m' : Message),
      Action.push r' (some m') ∈ (partial_handler t msgs).1 →
      m'.hasResponseError = false := by
  intro msgs
  induction msgs with
  | nil => intro r' m' h; simp [partial_handler] at h
  | cons m rest ih =>
      intro r' m' h
      cases hm : m.hasResponseError with
      | true =>
          cases hla : lookupAll t m.correlationIds with
          | error e =>
              rw [partial_handler_cons_errFail t m rest hm hla] at h
              simp at h
          | ok rs =>
              rw [partial_handler_cons_err t m rest hm hla] at h
              simp only [List.mem_append] at h
              rcases h with h | h
              · obtain ⟨v, hv⟩ := close_requests_shape rs _ h
                simp at hv
              · exact ih r' m' h
      | false =>
          cases hfwd : (forwardMsg t m m.correlationIds).2 with
          | some e =>
              rw [partial_handler_cons_noErr_fwdErr t m rest hm hfwd] at h
              obtain ⟨r'', hr''⟩ := forwardMsg_shape t m m.correlationIds _ h
              simp only [Action.push.injEq, Option.some.injEq] at hr''
              rw [hr''.2]
              exact hm
          | none =>
              rw [partial_handler_cons_noErr t m rest hm hfwd] at h
              simp only [List.mem_append] at h
              rcases h with h | h
              · obtain ⟨r'', hr''⟩ := forwardMsg_shape t m m.correlationIds _ h
                simp only [Action.push.injEq, Option.some.injEq] at hr''
                rw [hr''.2]
                exact hm
              · exact ih r' m' h

/-- C4: a message carrying the `RESPONSE_ERROR` marker, once reached
(every message up to and including it has registered correlation ids),
causes the terminal sentinel to be pushed onto the channel of every
request named by its correlation ids, and the message itself is never
forwarded as a payload onto any channel. -/
theorem c4_error_msg_closes_and_skips (t : Table) (pre post : List Message)
    (m : Message) (herr : m.hasResponseError = true)
    (hreg : ∀ m' ∈ pre ++ [m], ∀ c' ∈ m'.correlationIds,
      (dictLookup t c').isSome) :
    (∀ c ∈ m.correlationIds, ∀ r, dictLookup t c = some r →
        Action.push r none ∈ (partial_handler t (pre ++ m :: post)).1)
    ∧ ∀ r, Action.push r (some m) ∉ (partial_handler t (pre ++ m :: post)).1
    := by
  constructor
  · intro c hcm r hr
    induction pre with
    | nil =>
        have hmr : ∀ c' ∈ m.correlationIds, (dictLookup t c').isSome :=
          hreg m (List.mem_cons_self m [])
        obtain ⟨rs, hla⟩ := lookupAll_ok t m.correlationIds hmr
        rw [List.nil_append, partial_handler_cons_err t m post herr hla]
        refine List.mem_append_left _ ?_
        have hrrs : r ∈ rs := lookupAll_mem t m.correlationIds rs c r hla hcm hr
        exact List.mem_map.mpr ⟨r, hrrs, rfl⟩
    | cons p pre' ih =>
        have hpr : ∀ c' ∈ p.correlationIds, (dictLookup t c').isSome :=
          hreg p (List.mem_cons_self p (pre' ++ [m]))
        have hreg' : ∀ m' ∈ pre' ++ [m], ∀ c' ∈ m'.correlationIds,
            (dictLookup t c').isSome :=
          fun m' hm' => hreg m' (List.mem_cons_of_mem p hm')
        have ihh := ih hreg'
        rw [List.cons_append]
        cases hp : p.hasResponseError with
        | true =>
            obtain ⟨rs, hla⟩ := lookupAll_ok t p.correlationIds hpr
            rw [partial_handler_cons_err t p (pre' ++ m :: post) hp hla]
            exact List.mem_append_right _ ihh
        | false =>
            have hfwd := forwardMsg_no_err t p p.correlationIds hpr
            rw [partial_handler_cons_noErr t p (pre' ++ m :: post) hp hfwd]
            exact List.mem_append_right _ ihh
  · intro r hmem
    have hfalse := partial_handler_payload_noErr t (pre ++ m :: post) r m hmem
    rw [herr] at hfalse
    simp at hfalse

/-- Witness for C4 at a concrete input: the error-marked message tagged
with correlation id 1 closes request 10's channel and is itself never
forwarded as a payload. -/
theorem c4_witness :
    Action.push 10 none ∈ (partial_handler [(1, 10)] [msgErr]).1
    ∧ Action.push 10 (some msgErr) ∉ (partial_handler [(1, 10)] [msgErr]).1
    := by
  have h := c4_error_msg_closes_and_skips [(1, 10)] [] [] msgErr
    (by decide) (by decide)
  exact ⟨h.1 1 (by decide) 10 (by decide), h.2 10⟩

/-- C5 (amended): when an event's message references a correlation id
with no entry in the pending-request table, the `KeyError` raised by the
table lookup propagates out of the dispatcher entry point `__call__`
uncontained: the handler neither catches it nor converts it into a
diagnostic. -/
theorem c5_amended (st : HandlerState) (m : Message) (c : Nat)
    (hne : m.hasResponseError = false)
    (hid : m.correlationIds = [c])
    (hmiss : dictLookup st.requests c = none) :
    (handler_call st
        { eventType := Event.PARTIAL_RESPONSE, messages := [m] }).2.2
      = some (PyError.keyError c) := by
  have hfwd : (forwardMsg st.requests m m.correlationIds).2
      = some (PyError.keyError c) := by
    rw [hid, forwardMsg, hmiss]
  have hph := partial_handler_cons_noErr_fwdErr st.requests m [] hne hfwd
  unfold handler_call
  simp only [Event.PARTIAL_RESPONSE, Event.SESSION_STATUS,
    Event.SERVICE_STATUS, Event.RESPONSE]
  norm_num
  rw [hph]

/-- Witness for C5 (amended) at a concrete input: correlation id 7 is not
in the table, and `__call__` raises `KeyError(7)`. -/
theorem c5_amended_witness :
    (handler_call st1
        { eventType := Event.PARTIAL_RESPONSE, messages := [msgOrphan] }).2.2
      = some (PyError.keyError 7) :=
  c5_amended st1 msgOrphan 7 (by decide) (by decide) (by decide)

theorem session_handler_requests (st : HandlerState) (msgs : List Message) :
    ((session_handler st msgs).1).requests = st.requests := by
  cases msgs with
  | nil => rfl
  | cons m rest =>
      unfold session_handler
      by_cases h1 : m.name = "SessionStarted" <;>
        by_cases h2 : m.name = "SessionStopped" <;> simp [h1, h2]

theorem service_handler_requests (st : HandlerState) (msgs : List Message) :
    ((service_handler st msgs).1).requests = st.requests := by
  cases msgs with
  | nil => rfl
  | cons m rest =>
      unfold service_handler
      by_cases h : m.name = "ServiceOpened" <;> simp [h]

theorem handler_call_requests (st : HandlerState) (e : Event) :
    ((handler_call st e).1).requests = st.requests := by
  unfold handler_call
  split_ifs <;>
    simp [session_handler_requests, service_handler_requests]

/-- C2 (amended): no operation of the handler ever removes an entry from
the pending-request table (`__call__` leaves it untouched for every event
type, and `stop_session` does not either); `stop_session` pushes exactly
one terminal sentinel to a request registered under exactly one
correlation id — but since RESPONSE processing also pushes sentinels and
entries are never removed, a channel can receive the sentinel more than
once over the handler's lifetime (see the counterexample). -/
theorem c2_amended (st : HandlerState) (e : Event) (r : Nat)
    (hr : List.count r (List.map (fun p => p.2) st.requests) = 1) :
    ((handler_call st e).1).requests = st.requests
    ∧ sentinelCount (stop_session st) r = 1 := by
  refine ⟨handler_call_requests st e, ?_⟩
  unfold stop_session sentinelCount
  rw [List.count_append]
  have h1 := count_close_requests (List.map (fun p => p.2) st.requests) r
  unfold sentinelCount at h1
  rw [h1, hr]
  simp [List.count_cons]

/-- Witness for C2 (amended) at a concrete input: the table with the
single entry (1, 10). -/
theorem c2_amended_witness :
    ((handler_call st1 evPartA).1).requests = st1.requests
    ∧ sentinelCount (stop_session st1) 10 = 1 :=
  c2_amended st1 evPartA 10 (by decide)

theorem svcKeys_openAll (services : List (String × Bool)) (name : String) :
    List.any (svcOpenAll services) (fun p => p.1 == name)
      = List.any services (fun p => p.1 == name) := by
  unfold svcOpenAll
  rw [List.any_map]
  rfl

theorem runSvc_open_count (name : String) :
    ∀ (steps : List SvcStep) (services : List (String × Bool)),
      List.count (Action.openService name) (runSvc services steps).2
        = if List.any services (fun p => p.1 == name) then 0
          else if SvcStep.getService name ∈ steps then 1 else 0 := by
  intro steps
  induction steps with
  | nil =>
      intro services
      simp [runSvc]
  | cons s rest ih =>
      intro services
      cases s with
      | serviceOpened =>
          rw [runSvc, ih, svcKeys_openAll]
          simp
      | getService n =>
          rw [runSvc]
          by_cases hk : List.any services (fun p => p.1 == n)
          · rw [show get_service_sync services n = (services, []) from by
              unfold get_service_sync
              rw [if_pos hk]]
            simp only [List.nil_append]
            rw [ih]
            by_cases hn : n = name
            · subst hn
              rw [if_pos hk, if_pos hk]
            · by_cases hkname : List.any services (fun p => p.1 == name)
              · rw [if_pos hkname, if_pos hkname]
              · rw [if_neg hkname, if_neg hkname]
                have hmem : (SvcStep.getService name ∈
                    SvcStep.getService n :: rest)
                    ↔ SvcStep.getService name ∈ rest := by
                  simp [List.mem_cons]
                  intro h
                  exact absurd h.symm hn
                simp [hmem]
          · rw [show get_service_sync services n
                = (services ++ [(n, false)], [Action.openService n]) from by
              unfold get_service_sync
              rw [if_neg hk]]
            simp only [List.singleton_append, List.count_cons, ih,
              List.any_append]
            by_cases hn : n = name
            · subst hn
              simp [hk, List.any_cons]
            · have hmem : (SvcStep.getService name ∈
                  SvcStep.getService n :: rest)
                  ↔ SvcStep.getService name ∈ rest := by
                simp [List.mem_cons]
                intro h
                exact absurd h.symm hn
              simp [List.any_cons, hn, hmem]

/-- C6: across any interleaving of `_get_service` calls and
`ServiceOpened` status events, starting from an empty services table,
exactly one `openServiceAsync` call is issued per service name that is
requested at least once, and none for names never requested: the first
caller creates the gate and triggers opening, later callers reuse it. -/
theorem c6_open_service_once (name : String) (steps : List SvcStep) :
    List.count (Action.openService name) (runSvc [] steps).2
      = if SvcStep.getService name ∈ steps then 1 else 0 := by
  have h := runSvc_open_count name steps []
  simpa using h

/-- Checks that every `sendRequest c` in a trace is preceded by a
`register c _`; `registered` accumulates the correlation ids registered
so far. -/
def regBeforeSend (registered : List Nat) : List Action → Bool
  | [] => true
  | Action.sendRequest c :: rest =>
      List.contains registered c && regBeforeSend registered rest
  | Action.register c _ :: rest => regBeforeSend (c :: registered) rest
  | _ :: rest => regBeforeSend registered rest

theorem regBeforeSend_get_service (services : List (String × Bool))
    (n : String) (regd : List Nat) (l : List Action) :
    regBeforeSend regd ((get_service_sync services n).2 ++ l)
      = regBeforeSend regd l := by
  unfold get_service_sync
  split
  · rfl
  · rfl

theorem send_requests_reg_ok :
    ∀ (reqs : List RefDataRequest) (t : Table)
      (services : List (String × Bool)) (n : Nat) (regd : List Nat),
      regBeforeSend regd (send_requests t services n reqs).2.2.2 = true := by
  intro reqs
  induction reqs with
  | nil => intros; rfl
  | cons r rs ih =>
      intro t services n regd
      show regBeforeSend regd
        (Action.register n r.id
          :: ((get_service_sync services r.service_name).2
            ++ (Action.sendRequest n
              :: (send_requests (dictInsert t n r.id)
                  (get_service_sync services r.service_name).1 (n + 1)
               rs).2.2.2))) = true
      rw [regBeforeSend, regBeforeSend_get_service, regBeforeSend]
      rw [ih]
      simp [List.contains_cons]

/-- C7: in the trace produced by `send_requests`, every wire-level
submission `sendRequest c` is strictly preceded by the registration of
`c` in the pending-request table, for any starting table, services state
and correlation counter. -/
theorem c7_register_before_submission (reqs : List RefDataRequest)
    (t : Table) (services : List (String × Bool)) (nextCorr : Nat) :
    regBeforeSend [] (send_requests t services nextCorr reqs).2.2.2 = true :=
  send_requests_reg_ok reqs t services nextCorr []

/-- C8: constructing the handler outside a running asyncio loop fails
synchronously in `__init__` with the configuration `RuntimeError`
(the spec's `ConfigurationError`). -/
theorem c8_init_outside_loop_fails :
    (handler_init false).2 = Except.error configurationError := rfl

/-- C9: when constructed outside a running loop, `__init__` has already
created the session and called `startAsync()` before raising: the
side-effect trace is exactly session creation followed by `startAsync`,
and the result is still the configuration error. -/
theorem c9_init_not_atomic :
    (handler_init false).1 = [Action.createSession, Action.startAsync]
    ∧ (handler_init false).2 = Except.error configurationError :=
  ⟨rfl, rfl⟩

/-- C10: an event whose type tag is none of SESSION_STATUS,
SERVICE_STATUS, RESPONSE, PARTIAL_RESPONSE makes `__call__` raise a
`KeyError` from the `method_map` lookup, leaving the state untouched and
pushing nothing. -/
theorem c10_unknown_event_type_keyerror (st : HandlerState) (e : Event)
    (h1 : e.eventType ≠ Event.SESSION_STATUS)
    (h2 : e.eventType ≠ Event.SERVICE_STATUS)
    (h3 : e.eventType ≠ Event.RESPONSE)
    (h4 : e.eventType ≠ Event.PARTIAL_RESPONSE) :
    handler_call st e = (st, [], some (PyError.keyError e.eventType)) := by
  unfold handler_call
  simp [h1, h2, h3, h4]

/-- Witness for C10 at a concrete input: a TIMEOUT event raises
`KeyError(10)`. -/
theorem c10_witness :
    handler_call st1 evTimeout
      = (st1, [], some (PyError.keyError Event.TIMEOUT)) :=
  c10_unknown_event_type_keyerror st1 evTimeout
    (by decide) (by decide) (by decide) (by decide)

/-- C1 (counterexample): a RESPONSE event whose two messages are both
tagged with correlation id 1 (no error markers, id registered) makes the
channel of request 10 receive the terminal sentinel twice, not exactly
once: `_response_handler` closes once per message referencing the id. -/
theorem c1_counterexample :
    sentinelCount (response_handler [(1, 10)] [msgA, msgB]).1 10 = 2 := by
  decide

/-- C2 (counterexample): after a final RESPONSE event referencing
correlation id 1 is processed, the entry is still in the pending-request
table (nothing is ever removed), and a subsequent `stop_session` pushes
the sentinel again — two sentinels over the lifetime, not exactly one. -/
theorem c2_counterexample :
    ((handler_call st1 evRespA).1).requests = [(1, 10)]
    ∧ sentinelCount
        ((handler_call st1 evRespA).2.1
          ++ stop_session (handler_call st1 evRespA).1) 10 = 2 := by
  decide

/-- C3 (counterexample): a PARTIAL_RESPONSE event containing a message
with the `RESPONSE_ERROR` element pushes the terminal sentinel (via
`_is_error_msg` inside `_partial_handler`), so PARTIAL_RESPONSE events
can close a channel. -/
theorem c3_counterexample :
    sentinelCount (handler_call st1 evPartErr).2.1 10 = 1 := by
  decide

/-- C5 (counterexample): an event with a message whose correlation id 7
has no entry in the pending-request table makes `__call__` raise
`KeyError(7)` — the fault propagates out of the dispatcher entry point
instead of being contained. -/
theorem c5_counterexample :
    (handler_call st1 evPartOrphan).2.2 = some (PyError.keyError 7) := by
  decide

end AsyncBlp
